import Mathlib

/-!
# Insert translator of the Peloton query compiler

A shallow embedding of `src/codegen/operator/insert_translator.cpp`.

The translator is a code generator: each of its member functions talks to
collaborators (the code generator, the compilation context, the runtime-state
registry, the tuple materializer) whose calls are recorded, in order, in a
trace.  The emitted instructions are the `loadStatePtr`, `call` and
`generateTupleStorage` events of that trace; the other events are
compile-time calls into the compilation context.
-/

set_option linter.dupNamespace false

namespace peloton.codegen

/-! ## Planner and storage data the translator reads -/

/-- One attribute of a scan's output schema (`planner::AttributeInfo`). -/
structure AttributeInfo where
  attribute_id : Nat
  deriving DecidableEq

/-- The target table (`storage::DataTable`): only its two identifiers are read. -/
structure DataTable where
  database_oid : Nat
  oid : Nat
  deriving DecidableEq

/-- Table accessor `DataTable::GetDatabaseOid`. -/
def DataTable.GetDatabaseOid (table : DataTable) : Nat := table.database_oid

/-- Table accessor `DataTable::GetOid`. -/
def DataTable.GetOid (table : DataTable) : Nat := table.oid

/-- A child plan node.  `Consume` casts child 0 to `planner::AbstractScan`
without a check, so a child is either a scan (with the attributes that
`GetAttributes` yields) or some other node on which that cast is undefined. -/
inductive AbstractPlan where
  | scan (node : Nat) (attributes : List AttributeInfo)
  | other (node : Nat)
  deriving DecidableEq

/-- The insert plan node (`planner::InsertPlan`), as far as the translator
reads it.  `bulk_insert_count` and `tuples` stand for `GetBulkInsertCount()`
and `GetTuple(i)`, the address of the i-th embedded row; their declarations
are not part of the translated file, so they are taken as given. -/
structure InsertPlan where
  table : DataTable
  children : List AbstractPlan
  bulk_insert_count : Nat
  tuples : Nat → Nat

/-- Plan accessor `GetTable()`. -/
def InsertPlan.GetTable (plan : InsertPlan) : DataTable := plan.table

/-- Plan accessor `GetChildrenSize()`. -/
def InsertPlan.GetChildrenSize (plan : InsertPlan) : Nat := plan.children.length

/-- Plan accessor `GetChild(i)`; there is no such child when `i` is out of range. -/
def InsertPlan.GetChild (plan : InsertPlan) (i : Nat) : Option AbstractPlan :=
  plan.children.get? i

/-- Plan accessor `GetBulkInsertCount()`. -/
def InsertPlan.GetBulkInsertCount (plan : InsertPlan) : Nat := plan.bulk_insert_count

/-- Plan accessor `GetTuple(i)`: the address of the i-th embedded row. -/
def InsertPlan.GetTuple (plan : InsertPlan) (i : Nat) : Nat := plan.tuples i

/-- The static cast to `planner::AbstractScan` followed by `GetAttributes(ais)`,
which appends the scan's attributes, in the scan's order, to `ais`. -/
def AbstractPlan.GetAttributes (child : AbstractPlan) (ais : List AttributeInfo) :
    Option (List AttributeInfo) :=
  match child with
  | .scan _ attributes => some (ais ++ attributes)
  | .other _ => none

/-- The row handed to `Consume` (`RowBatch::Row`). -/
structure Row where
  id : Nat
  deriving DecidableEq

/-! ## Values, proxies and the trace -/

/-- Types obtained from the proxies (`InserterProxy::GetType`, `TupleProxy::GetType`). -/
inductive LType where
  | inserter
  | tuple
  | pointerTo (t : LType)
  deriving DecidableEq

/-- Proxy type `InserterProxy::GetType(codegen)`. -/
def InserterProxy.GetType : LType := .inserter

/-- Proxy type `TupleProxy::GetType(codegen)`. -/
def TupleProxy.GetType : LType := .tuple

/-- Type constructor `getPointerTo()`. -/
def LType.getPointerTo (t : LType) : LType := .pointerTo t

/-- The runtime functions reachable through the proxies. -/
inductive ProxyFunc where
  | Catalog_GetTableWithOid
  | Inserter_Init
  | Inserter_CreateTuple
  | Inserter_Insert
  | Inserter_ReserveTupleStorage
  | Inserter_GetPool
  | Inserter_InsertReserved
  | Inserter_Destroy
  deriving DecidableEq

/-- The functions of `InserterProxy`. -/
def ProxyFunc.isInserter : ProxyFunc → Bool
  | .Catalog_GetTableWithOid => false
  | _ => true

/-- Compile-time values (`llvm::Value *`).  `result pos` is the value of the
call recorded at position `pos` of the trace. -/
inductive Value where
  | catalogPtr
  | transactionPtr
  | executorContextPtr
  | const32 (bits : Nat)
  | const64 (bits : Nat)
  | intToPtr (v : Value) (ty : LType)
  | statePtr (id : Nat)
  | result (pos : Nat)
  deriving DecidableEq

/-- What the translator does to its collaborators, in order. -/
inductive Event where
  | operatorTranslator (pipeline : Nat)
  | prepare (child : AbstractPlan) (pipeline : Nat)
  | registerState (name : String) (type : LType)
  | produce (child : AbstractPlan)
  | loadStatePtr (id : Nat)
  | call (f : ProxyFunc) (args : List Value)
  | generateTupleStorage (table : DataTable) (row : Row) (ais : List AttributeInfo)
      (tuple_storage pool : Value)
  deriving DecidableEq

/-- The compilation context with its code generator and runtime-state
registry: the trace so far and the registered state slots. -/
structure CompilationContext where
  trace : List Event
  runtime_state : List (String × LType)
  deriving DecidableEq

/-- Behaviour of the translators of the child plan nodes, which live in other
files: what preparing a child adds (events and state slots), and what
producing a child does, given the `Consume` of its pipeline parent. -/
structure ChildTranslators where
  prepare : AbstractPlan → Nat → CompilationContext → List Event × List (String × LType)
  produce : AbstractPlan → (Row → CompilationContext → Option CompilationContext) →
    CompilationContext → Option CompilationContext

/-- Append one event to the trace. -/
def CompilationContext.record (context : CompilationContext) (e : Event) : CompilationContext :=
  { context with trace := context.trace ++ [e] }

/-- Context handle `GetTransactionPtr()`. -/
def CompilationContext.GetTransactionPtr : Value := .transactionPtr

/-- Context handle `GetExecutorContextPtr()`. -/
def CompilationContext.GetExecutorContextPtr : Value := .executorContextPtr

/-- Context handle `GetCatalogPtr()`. -/
def GetCatalogPtr : Value := .catalogPtr

/-- Constant `codegen.Const32(val)`: the 32-bit pattern of `val`. -/
def CodeGen.Const32 (val : Nat) : Value := .const32 (val % 2 ^ 32)

/-- The cast `(int64_t)tuple` of an address to a signed 64-bit integer. -/
def castInt64 (address : Nat) : Int :=
  ((address : Int) + 2 ^ 63) % 2 ^ 64 - 2 ^ 63

/-- Constant `codegen.Const64(val)`: the 64-bit pattern of `val`. -/
def CodeGen.Const64 (val : Int) : Value := .const64 (val % 2 ^ 64).toNat

/-- Conversion `codegen->CreateIntToPtr(v, ty)`. -/
def CodeGen.CreateIntToPtr (v : Value) (ty : LType) : Value := .intToPtr v ty

/-- Modelled from the spec: `CodeGen::CallFunc`, "emit call to native function
F with arguments A" (section 6).  The call is appended to the emitted code and
its value is the result of that very instruction. -/
def CodeGen.CallFunc (f : ProxyFunc) (args : List Value) (context : CompilationContext) :
    Value × CompilationContext :=
  (.result context.trace.length, context.record (.call f args))

/-- Modelled from the spec: `OperatorTranslator::LoadStatePtr`, the "load slot
S" instruction (sections 4.2 and 6); a slot id resolves to the same storage
location for every load (section 3). -/
def LoadStatePtr (state_id : Nat) (context : CompilationContext) : Value × CompilationContext :=
  (.statePtr state_id, context.record (.loadStatePtr state_id))

/-- Modelled from the spec: `RuntimeState::RegisterState(name, type)`, which
allocates a fresh slot on each call and returns its id (section 4.2). -/
def RuntimeState.RegisterState (name : String) (type : LType) (context : CompilationContext) :
    Nat × CompilationContext :=
  (context.runtime_state.length,
   { trace := context.trace ++ [.registerState name type],
     runtime_state := context.runtime_state ++ [(name, type)] })

/-- Modelled from the spec: `CompilationContext::Prepare(planNode, pipeline)`
(section 4.1); preparing the child may add events and register state slots. -/
def CompilationContext.Prepare (env : ChildTranslators) (child : AbstractPlan) (pipeline : Nat)
    (context : CompilationContext) : CompilationContext :=
  let c1 := context.record (.prepare child pipeline)
  let added := env.prepare child pipeline c1
  { trace := c1.trace ++ added.1, runtime_state := c1.runtime_state ++ added.2 }

/-- Modelled from the spec: `CompilationContext::Produce(planNode)` (section
4.1); the child's translator produces and pushes its rows into `consume`, the
`Consume` of its pipeline parent. -/
def CompilationContext.Produce (env : ChildTranslators) (child : AbstractPlan)
    (consume : Row → CompilationContext → Option CompilationContext)
    (context : CompilationContext) : Option CompilationContext :=
  env.produce child consume (context.record (.produce child))

/-- Modelled from the spec: the base-class constructor
`OperatorTranslator(context, pipeline)`, whose body is in another file. -/
def OperatorTranslator.OperatorTranslator (context : CompilationContext) (pipeline : Nat) :
    CompilationContext :=
  context.record (.operatorTranslator pipeline)

/-- Modelled from the spec: the Tuple Materializer
`GenerateTupleStorage(row, attributeList, destinationBuffer, memoryPool)`
(section 4.6), recorded with its arguments. -/
def Tuple.GenerateTupleStorage (tuple_ : DataTable) (row : Row) (ais : List AttributeInfo)
    (tuple_storage pool : Value) (context : CompilationContext) : CompilationContext :=
  context.record (.generateTupleStorage tuple_ row ais tuple_storage pool)

/-! ## The translator -/

/-- The members of `InsertTranslator`. -/
structure InsertTranslator where
  insert_plan_ : InsertPlan
  tuple_ : DataTable
  inserter_state_id_ : Nat

/-- The member `InsertTranslator::InitializeState` (not const: the translator
is threaded through). -/
def InsertTranslator.InitializeState (t : InsertTranslator) (context : CompilationContext) :
    InsertTranslator × CompilationContext :=
  let txn_ptr := CompilationContext.GetTransactionPtr
  let table := t.insert_plan_.GetTable
  let table_ptr := CodeGen.CallFunc .Catalog_GetTableWithOid
    [GetCatalogPtr, CodeGen.Const32 table.GetDatabaseOid, CodeGen.Const32 table.GetOid] context
  let executor_ptr := CompilationContext.GetExecutorContextPtr
  -- Initialize the inserter with txn and table
  let inserter := LoadStatePtr t.inserter_state_id_ table_ptr.2
  let args := [inserter.1, txn_ptr, table_ptr.1, executor_ptr]
  let done := CodeGen.CallFunc .Inserter_Init args inserter.2
  (t, done.2)

/-- The loop of `Produce` over the embedded rows, from counter `i`.  The
counter has the type of `num_tuples` and is incremented only while
`i < num_tuples`, so the increment never wraps. -/
def InsertTranslator.produceLoop (t : InsertTranslator) (inserter : Value) (num_tuples : Nat)
    (i : Nat) (context : CompilationContext) : CompilationContext :=
  if i < num_tuples then
    -- Convert the tuple address to the LLVM pointer value
    let tuple := t.insert_plan_.GetTuple i
    let tuple_ptr := CodeGen.CreateIntToPtr (CodeGen.Const64 (castInt64 tuple))
      TupleProxy.GetType.getPointerTo
    -- Perform insertion of each tuple through inserter
    let inserted := CodeGen.CallFunc .Inserter_Insert [inserter, tuple_ptr] context
    t.produceLoop inserter num_tuples (i + 1) inserted.2
  else context
termination_by num_tuples - i

/-- The member `InsertTranslator::Consume` (const). -/
def InsertTranslator.Consume (t : InsertTranslator) (row : Row) (context : CompilationContext) :
    Option CompilationContext :=
  let inserter := LoadStatePtr t.inserter_state_id_ context
  (t.insert_plan_.GetChild 0).bind (fun scan =>
    (scan.GetAttributes []).map (fun ais =>
      let tuple_storage := CodeGen.CallFunc .Inserter_ReserveTupleStorage [inserter.1] inserter.2
      let pool := CodeGen.CallFunc .Inserter_GetPool [inserter.1] tuple_storage.2
      -- Generate/Materialize tuple data from row and attribute informations
      let c := Tuple.GenerateTupleStorage t.tuple_ row ais tuple_storage.1 pool.1 pool.2
      -- Call Inserter to insert the reserved tuple storage area
      (CodeGen.CallFunc .Inserter_InsertReserved [inserter.1] c).2))

/-- The member `InsertTranslator::Produce` (const). -/
def InsertTranslator.Produce (env : ChildTranslators) (t : InsertTranslator)
    (context : CompilationContext) : Option CompilationContext :=
  let inserter := LoadStatePtr t.inserter_state_id_ context
  if t.insert_plan_.GetChildrenSize ≠ 0 then
    -- Let the inserter prepare for tuple-at-a-time insertions
    let created := CodeGen.CallFunc .Inserter_CreateTuple [inserter.1] inserter.2
    -- Produce on its child (a scan), to produce the tuples to be inserted
    (t.insert_plan_.GetChild 0).bind (fun child =>
      created.2.Produce env child t.Consume)
  else
    -- Let the inserter have all the tuple references to be inserted
    let num_tuples := t.insert_plan_.GetBulkInsertCount
    some (t.produceLoop inserter.1 num_tuples 0 inserter.2)

/-- The member `InsertTranslator::TearDownState` (not const). -/
def InsertTranslator.TearDownState (t : InsertTranslator) (context : CompilationContext) :
    InsertTranslator × CompilationContext :=
  -- Finalize the inserter
  let inserter := LoadStatePtr t.inserter_state_id_ context
  let args := [inserter.1]
  (t, (CodeGen.CallFunc .Inserter_Destroy args inserter.2).2)

/-- The constructor `InsertTranslator::InsertTranslator` (placed after the members it
shares a namespace with). -/
def InsertTranslator.InsertTranslator (env : ChildTranslators) (insert_plan : InsertPlan)
    (context : CompilationContext) (pipeline : Nat) :
    Option (InsertTranslator × CompilationContext) :=
  let c0 := OperatorTranslator.OperatorTranslator context pipeline
  let tuple_ := insert_plan.GetTable
  -- Create the translator for its child only when there is a child
  let prepared : Option CompilationContext :=
    if insert_plan.GetChildrenSize ≠ 0 then
      (insert_plan.GetChild 0).map (fun child => c0.Prepare env child pipeline)
    else some c0
  prepared.map (fun c1 =>
    -- Register the inserter's runtime state
    let registered := RuntimeState.RegisterState "inserter" InserterProxy.GetType c1
    ({ insert_plan_ := insert_plan, tuple_ := tuple_, inserter_state_id_ := registered.1 },
     registered.2))

/-! ## Driving the phases -/

/-- Modelled from the spec: the Compilation Context runs the phases of a
translator once each, `InitializeState`, then `Produce`, then `TearDownState`
(sections 2 and 4.3). -/
def lifecycle (env : ChildTranslators) (t : InsertTranslator) (context : CompilationContext) :
    Option (InsertTranslator × CompilationContext) :=
  let initialized := t.InitializeState context
  (initialized.1.Produce env initialized.2).map (fun produced =>
    initialized.1.TearDownState produced)

/-- The four phases of the translator contract. -/
inductive Phase where
  | initializeState
  | produce
  | consume (row : Row)
  | tearDownState

/-- One phase run on a translator; the const members hand the translator on
as it is. -/
def runPhase (env : ChildTranslators) (phase : Phase) (t : InsertTranslator)
    (context : CompilationContext) : Option (InsertTranslator × CompilationContext) :=
  match phase with
  | .initializeState => some (t.InitializeState context)
  | .produce => (t.Produce env context).map (fun c => (t, c))
  | .consume row => (t.Consume row context).map (fun c => (t, c))
  | .tearDownState => some (t.TearDownState context)

/-- The child's translator yields the rows `rows` and pushes each of them, in
this order and once, into the `Consume` of its parent, emitting nothing of its
own. -/
def PushesRows (env : ChildTranslators) (child : AbstractPlan) (rows : List Row) : Prop :=
  ∀ consume context,
    env.produce child consume context = rows.foldlM (fun c row => consume row c) context

/-! ## Reading a trace -/

/-- The call an event emits, if it is one. -/
def Event.callee : Event → Option (ProxyFunc × List Value)
  | .call f args => some (f, args)
  | _ => none

/-- The runtime calls of a list of events, in order. -/
def callsOf (events : List Event) : List (ProxyFunc × List Value) :=
  events.filterMap Event.callee

/-- The number of calls to `f` among the events. -/
def callCount (f : ProxyFunc) (events : List Event) : Nat :=
  ((callsOf events).filter (fun c => decide (c.1 = f))).length

/-- The row an event materializes, if it is a materialization. -/
def Event.materializedRow : Event → Option Row
  | .generateTupleStorage _ row _ _ _ => some row
  | _ => none

/-- The rows materialized by a list of events, in order. -/
def materializedRows (events : List Event) : List Row :=
  events.filterMap Event.materializedRow

/-- The child whose production an event starts, if it is a `Produce` call. -/
def Event.producedChild : Event → Option AbstractPlan
  | .produce child => some child
  | _ => none

/-- The pointer value `Produce` builds for the embedded row at `address`. -/
def tuplePointer (address : Nat) : Value :=
  .intToPtr (.const64 (address % 2 ^ 64)) (.pointerTo .tuple)

/-- The insert-literal calls for the rows `0 .. N-1` of the plan, in order. -/
def literalInserts (t : InsertTranslator) : List Event :=
  (List.range t.insert_plan_.GetBulkInsertCount).map (fun i =>
    Event.call .Inserter_Insert
      [.statePtr t.inserter_state_id_, tuplePointer (t.insert_plan_.GetTuple i)])

/-- The events of one reserve, get-pool, materialize, commit group, emitted
from trace position `base` for `row`. -/
def consumeEvents (t : InsertTranslator) (ais : List AttributeInfo) (base : Nat) (row : Row) :
    List Event :=
  [ .loadStatePtr t.inserter_state_id_,
    .call .Inserter_ReserveTupleStorage [.statePtr t.inserter_state_id_],
    .call .Inserter_GetPool [.statePtr t.inserter_state_id_],
    .generateTupleStorage t.tuple_ row ais (.result (base + 1)) (.result (base + 2)),
    .call .Inserter_InsertReserved [.statePtr t.inserter_state_id_] ]

/-- One group per row, in the rows' order, from trace position `base`. -/
def streamEvents (t : InsertTranslator) (ais : List AttributeInfo) : Nat → List Row → List Event
  | _, [] => []
  | base, row :: rows => consumeEvents t ais base row ++ streamEvents t ais (base + 5) rows

/-! ## Running the emitted code -/

/-- The native runtime the generated code runs against: the words behind the
shared handles and the state slots, and what each native call returns given
its position in the code and its argument words (0 is the null handle). -/
structure Runtime where
  catalog : Nat
  transaction : Nat
  executorContext : Nat
  slotAddress : Nat → Nat
  native : Nat → ProxyFunc → List Nat → Nat

/-- What running the generated code does to the runtime. -/
inductive Effect where
  | called (f : ProxyFunc) (args : List Nat) (returned : Nat)
  | materialized (table : DataTable) (row : Row) (ais : List AttributeInfo)
      (tuple_storage pool : Nat)
  deriving DecidableEq

/-- The word a value denotes when the code runs; `results` holds the words
returned at the trace positions run so far. -/
def Value.eval (rt : Runtime) (results : List Nat) : Value → Nat
  | .catalogPtr => rt.catalog
  | .transactionPtr => rt.transaction
  | .executorContextPtr => rt.executorContext
  | .const32 bits => bits
  | .const64 bits => bits
  | .intToPtr v _ => v.eval rt results
  | .statePtr id => rt.slotAddress id
  | .result pos => results.getD pos 0

/-- Modelled from the spec: the emitted instructions form a single
control-flow path (section 5), so they run one after the other in emission
order; compile-time events and slot-address loads have no effect. -/
def execStep (rt : Runtime) (st : List Nat × List Effect) (e : Event) : List Nat × List Effect :=
  match e with
  | .call f args =>
    let words := args.map (Value.eval rt st.1)
    let returned := rt.native st.1.length f words
    (st.1 ++ [returned], st.2 ++ [.called f words returned])
  | .generateTupleStorage table row ais tuple_storage pool =>
    (st.1 ++ [0],
     st.2 ++ [.materialized table row ais (tuple_storage.eval rt st.1) (pool.eval rt st.1)])
  | _ => (st.1 ++ [0], st.2)

/-- Run a trace from the state `st`. -/
def execFrom (rt : Runtime) (st : List Nat × List Effect) (events : List Event) :
    List Nat × List Effect :=
  events.foldl (execStep rt) st

/-- The effects of running a whole trace. -/
def exec (rt : Runtime) (events : List Event) : List Effect :=
  (execFrom rt ([], []) events).2

/-- The events recorded between the context `before` and the later context `after`. -/
def emittedSince (before after : CompilationContext) : List Event :=
  after.trace.drop before.trace.length

/-! ## Sample inputs -/

/-- A target table: database 1, table 7. -/
def sampleTable : DataTable := { database_oid := 1, oid := 7 }

/-- A context in which nothing has been recorded or registered yet. -/
def emptyContext : CompilationContext := { trace := [], runtime_state := [] }

/-- Scenario A: no child, three embedded rows at addresses 4096, 4160, 4224. -/
def literalPlan : InsertPlan :=
  { table := sampleTable, children := [], bulk_insert_count := 3,
    tuples := fun i => 4096 + 64 * i }

/-- Scenario C: no child and no embedded row. -/
def emptyPlan : InsertPlan :=
  { table := sampleTable, children := [], bulk_insert_count := 0, tuples := fun _ => 0 }

/-- A scan child with two attributes. -/
def scanChild : AbstractPlan := .scan 2 [{ attribute_id := 0 }, { attribute_id := 1 }]

/-- Scenario B: one scan child; the plan also carries three embedded rows. -/
def streamPlan : InsertPlan :=
  { table := sampleTable, children := [scanChild], bulk_insert_count := 3,
    tuples := fun i => 4096 + 64 * i }

/-- The five rows the sample scan yields. -/
def fiveRows : List Row := [{ id := 0 }, { id := 1 }, { id := 2 }, { id := 3 }, { id := 4 }]

/-- Child translators of a scan that registers one state slot of its own when
prepared and pushes `rows` into its parent when produced. -/
def scanOf (rows : List Row) : ChildTranslators :=
  { prepare := fun _ _ _ => ([], [("scan", LType.pointerTo .tuple)]),
    produce := fun _ consume context => rows.foldlM (fun c row => consume row c) context }

/-- The translator of `literalPlan`, with slot 0. -/
def literalTranslator : InsertTranslator :=
  { insert_plan_ := literalPlan, tuple_ := sampleTable, inserter_state_id_ := 0 }

/-- The translator of `emptyPlan`, with slot 0. -/
def emptyTranslator : InsertTranslator :=
  { insert_plan_ := emptyPlan, tuple_ := sampleTable, inserter_state_id_ := 0 }

/-- The translator of `streamPlan`, with slot 1. -/
def streamTranslator : InsertTranslator :=
  { insert_plan_ := streamPlan, tuple_ := sampleTable, inserter_state_id_ := 1 }

/-- A runtime in which every native call returns the null handle. -/
def nullRuntime : Runtime :=
  { catalog := 100, transaction := 200, executorContext := 300,
    slotAddress := fun id => 1000 + 8 * id,
    native := fun _ _ _ => 0 }

/-! ## Facts about the helpers -/

theorem castInt64_bits (address : Nat) :
    (castInt64 address % 2 ^ 64).toNat = address % 2 ^ 64 := by
  have h : castInt64 address = ((address : Int) + 2 ^ 63) % 2 ^ 64 - 2 ^ 63 := rfl
  rw [h]
  omega

theorem const64_castInt64 (address : Nat) :
    CodeGen.Const64 (castInt64 address) = .const64 (address % 2 ^ 64) := by
  have h : CodeGen.Const64 (castInt64 address)
      = .const64 (castInt64 address % 2 ^ 64).toNat := rfl
  rw [h, castInt64_bits]

theorem tuplePointer_eq (address : Nat) :
    CodeGen.CreateIntToPtr (CodeGen.Const64 (castInt64 address)) TupleProxy.GetType.getPointerTo
      = tuplePointer address := by
  rw [const64_castInt64]
  rfl

theorem tuplePointer_eval (rt : Runtime) (results : List Nat) (address : Nat) :
    (tuplePointer address).eval rt results = address % 2 ^ 64 := by
  rfl

theorem get?_after (a b : List Event) (i : Nat) :
    (a ++ b).get? (a.length + i) = b.get? i := by
  induction a with
  | nil => simp
  | cons x a ih => simpa [Nat.succ_add] using ih

theorem emittedSince_append (context : CompilationContext) (events : List Event)
    (slots : List (String × LType)) :
    emittedSince context { trace := context.trace ++ events, runtime_state := slots } = events := by
  simp [emittedSince]

theorem initializeState_eq (t : InsertTranslator) (context : CompilationContext) :
    t.InitializeState context =
      (t, { trace := context.trace ++
              [ .call .Catalog_GetTableWithOid
                  [GetCatalogPtr, CodeGen.Const32 t.insert_plan_.GetTable.GetDatabaseOid,
                   CodeGen.Const32 t.insert_plan_.GetTable.GetOid],
                .loadStatePtr t.inserter_state_id_,
                .call .Inserter_Init
                  [.statePtr t.inserter_state_id_, .transactionPtr,
                   .result context.trace.length, .executorContextPtr] ],
            runtime_state := context.runtime_state }) := by
  simp [InsertTranslator.InitializeState, CodeGen.CallFunc, LoadStatePtr,
    CompilationContext.record, CompilationContext.GetTransactionPtr,
    CompilationContext.GetExecutorContextPtr]

theorem tearDownState_eq (t : InsertTranslator) (context : CompilationContext) :
    t.TearDownState context =
      (t, { trace := context.trace ++
              [ .loadStatePtr t.inserter_state_id_,
                .call .Inserter_Destroy [.statePtr t.inserter_state_id_] ],
            runtime_state := context.runtime_state }) := by
  simp [InsertTranslator.TearDownState, CodeGen.CallFunc, LoadStatePtr,
    CompilationContext.record]

theorem consume_eq (t : InsertTranslator) (row : Row) (context : CompilationContext)
    (node : Nat) (attributes : List AttributeInfo)
    (hchild : t.insert_plan_.GetChild 0 = some (.scan node attributes)) :
    t.Consume row context =
      some { trace := context.trace ++ consumeEvents t attributes context.trace.length row,
             runtime_state := context.runtime_state } := by
  simp [InsertTranslator.Consume, hchild, AbstractPlan.GetAttributes, CodeGen.CallFunc,
    LoadStatePtr, CompilationContext.record, Tuple.GenerateTupleStorage, consumeEvents]

theorem produceLoop_eq (t : InsertTranslator) (inserter : Value) (n : Nat) :
    ∀ (k i : Nat) (context : CompilationContext), k = n - i →
      t.produceLoop inserter n i context =
        { trace := context.trace ++ (List.range' i k).map (fun j =>
            Event.call .Inserter_Insert [inserter, tuplePointer (t.insert_plan_.GetTuple j)]),
          runtime_state := context.runtime_state } := by
  intro k
  induction k with
  | zero =>
    intro i context h
    rw [InsertTranslator.produceLoop]
    simp [show ¬ i < n by omega]
  | succ k ih =>
    intro i context h
    rw [InsertTranslator.produceLoop]
    simp only [show i < n by omega, if_true]
    rw [ih (i + 1) _ (by omega)]
    simp [CodeGen.CallFunc, CompilationContext.record, tuplePointer_eq, List.range'_succ]

theorem produce_childless_eq (env : ChildTranslators) (t : InsertTranslator)
    (context : CompilationContext) (hnone : t.insert_plan_.GetChildrenSize = 0) :
    t.Produce env context =
      some { trace := context.trace ++ .loadStatePtr t.inserter_state_id_ :: literalInserts t,
             runtime_state := context.runtime_state } := by
  simp only [InsertTranslator.Produce, hnone, ne_eq, not_true_eq_false, if_false]
  rw [produceLoop_eq t _ _ _ 0 _ rfl]
  simp [LoadStatePtr, CompilationContext.record, literalInserts, List.range_eq_range']

theorem produce_child_eq (env : ChildTranslators) (t : InsertTranslator)
    (context : CompilationContext) (child : AbstractPlan) (rest : List AbstractPlan)
    (hchild : t.insert_plan_.children = child :: rest) :
    t.Produce env context =
      env.produce child t.Consume
        { trace := context.trace ++
            [ .loadStatePtr t.inserter_state_id_,
              .call .Inserter_CreateTuple [.statePtr t.inserter_state_id_],
              .produce child ],
          runtime_state := context.runtime_state } := by
  simp [InsertTranslator.Produce, InsertPlan.GetChildrenSize, InsertPlan.GetChild, hchild,
    CompilationContext.Produce, CodeGen.CallFunc, LoadStatePtr, CompilationContext.record]

theorem consume_foldlM_eq (t : InsertTranslator) (node : Nat) (attributes : List AttributeInfo)
    (hchild : t.insert_plan_.GetChild 0 = some (.scan node attributes)) :
    ∀ (rows : List Row) (context : CompilationContext),
      rows.foldlM (fun c row => t.Consume row c) context =
        some { trace := context.trace ++ streamEvents t attributes context.trace.length rows,
               runtime_state := context.runtime_state } := by
  intro rows
  induction rows with
  | nil =>
    intro context
    simp [streamEvents]
  | cons row rows ih =>
    intro context
    rw [List.foldlM_cons, consume_eq t row context node attributes hchild]
    simp only [Option.bind_eq_bind, Option.some_bind]
    rw [ih]
    simp [streamEvents, consumeEvents, Nat.add_assoc]

theorem callCount_append (f : ProxyFunc) (a b : List Event) :
    callCount f (a ++ b) = callCount f a + callCount f b := by
  simp [callCount, callsOf, List.filterMap_append]

theorem callCount_stream (t : InsertTranslator) (ais : List AttributeInfo) (f : ProxyFunc)
    (n : Nat) (hgroup : ∀ base row, callCount f (consumeEvents t ais base row) = n) :
    ∀ (rows : List Row) (base : Nat),
      callCount f (streamEvents t ais base rows) = n * rows.length := by
  intro rows
  induction rows with
  | nil => intro base; rfl
  | cons row rows ih =>
    intro base
    simp only [streamEvents, callCount_append, hgroup, ih, List.length_cons]
    ring

theorem materializedRows_append (a b : List Event) :
    materializedRows (a ++ b) = materializedRows a ++ materializedRows b := by
  simp [materializedRows, List.filterMap_append]

theorem materializedRows_stream (t : InsertTranslator) (ais : List AttributeInfo) :
    ∀ (rows : List Row) (base : Nat), materializedRows (streamEvents t ais base rows) = rows := by
  intro rows
  induction rows with
  | nil => intro base; rfl
  | cons row rows ih =>
    intro base
    simp only [streamEvents, materializedRows_append, ih]
    rfl

theorem stream_materializations (t : InsertTranslator) (ais : List AttributeInfo) :
    ∀ (rows : List Row) (base : Nat) (table : DataTable) (row : Row) (ais' : List AttributeInfo)
      (storage pool : Value),
      Event.generateTupleStorage table row ais' storage pool ∈ streamEvents t ais base rows →
      ais' = ais ∧ table = t.tuple_ := by
  intro rows
  induction rows with
  | nil => intro base table row ais' storage pool h; simp [streamEvents] at h
  | cons r rows ih =>
    intro base table row ais' storage pool h
    simp only [streamEvents, List.mem_append] at h
    rcases h with h | h
    · simp [consumeEvents] at h
      exact ⟨h.2.2.1, h.1⟩
    · exact ih _ _ _ _ _ _ h

theorem stream_inserter_calls (t : InsertTranslator) (ais : List AttributeInfo) :
    ∀ (rows : List Row) (base : Nat) (f : ProxyFunc) (args : List Value),
      Event.call f args ∈ streamEvents t ais base rows →
      args = [.statePtr t.inserter_state_id_] := by
  intro rows
  induction rows with
  | nil => intro base f args h; simp [streamEvents] at h
  | cons r rows ih =>
    intro base f args h
    simp only [streamEvents, List.mem_append] at h
    rcases h with h | h
    · simp [consumeEvents] at h
      rcases h with h | h | h <;> exact h.2
    · exact ih _ _ _ h

theorem producedChild_stream (t : InsertTranslator) (ais : List AttributeInfo) :
    ∀ (rows : List Row) (base : Nat),
      (streamEvents t ais base rows).filterMap Event.producedChild = [] := by
  intro rows
  induction rows with
  | nil => intro base; rfl
  | cons row rows ih =>
    intro base
    simp only [streamEvents, List.filterMap_append, ih]
    rfl

theorem getChild_zero (plan : InsertPlan) (child : AbstractPlan) (rest : List AbstractPlan)
    (hchildren : plan.children = child :: rest) : plan.GetChild 0 = some child := by
  simp [InsertPlan.GetChild, hchildren]

theorem produce_stream_eq (env : ChildTranslators) (t : InsertTranslator)
    (context : CompilationContext) (node : Nat) (attributes : List AttributeInfo)
    (rest : List AbstractPlan) (rows : List Row)
    (hchildren : t.insert_plan_.children = .scan node attributes :: rest)
    (hpush : PushesRows env (.scan node attributes) rows) :
    t.Produce env context =
      some { trace := context.trace ++
               ([ .loadStatePtr t.inserter_state_id_,
                  .call .Inserter_CreateTuple [.statePtr t.inserter_state_id_],
                  .produce (.scan node attributes) ] ++
                streamEvents t attributes (context.trace.length + 3) rows),
             runtime_state := context.runtime_state } := by
  rw [produce_child_eq env t context _ rest hchildren, hpush,
    consume_foldlM_eq t node attributes (getChild_zero _ _ _ hchildren)]
  simp

theorem getD_after (a b : List Nat) (i : Nat) (d : Nat) :
    (a ++ b).getD (a.length + i) d = b.getD i d := by
  induction a with
  | nil => simp
  | cons x a ih => simpa [Nat.succ_add] using ih

theorem execFrom_append (rt : Runtime) (st : List Nat × List Effect) (a b : List Event) :
    execFrom rt st (a ++ b) = execFrom rt (execFrom rt st a) b := by
  simp [execFrom, List.foldl_append]

theorem execStep_length (rt : Runtime) (st : List Nat × List Effect) (e : Event) :
    (execStep rt st e).1.length = st.1.length + 1 := by
  cases e <;> simp [execStep]

theorem execFrom_length (rt : Runtime) (events : List Event) :
    ∀ st : List Nat × List Effect, (execFrom rt st events).1.length = st.1.length + events.length := by
  induction events with
  | nil => intro st; rfl
  | cons e events ih =>
    intro st
    have hstep : execFrom rt st (e :: events) = execFrom rt (execStep rt st e) events := rfl
    rw [hstep, ih, execStep_length, List.length_cons]
    omega

theorem execFrom_consumeEvents (rt : Runtime) (st : List Nat × List Effect)
    (t : InsertTranslator) (ais : List AttributeInfo) (row : Row) :
    (execFrom rt st (consumeEvents t ais st.1.length row)).2 =
      st.2 ++
        [ .called .Inserter_ReserveTupleStorage [rt.slotAddress t.inserter_state_id_]
            (rt.native (st.1.length + 1) .Inserter_ReserveTupleStorage
              [rt.slotAddress t.inserter_state_id_]),
          .called .Inserter_GetPool [rt.slotAddress t.inserter_state_id_]
            (rt.native (st.1.length + 2) .Inserter_GetPool
              [rt.slotAddress t.inserter_state_id_]),
          .materialized t.tuple_ row ais
            (rt.native (st.1.length + 1) .Inserter_ReserveTupleStorage
              [rt.slotAddress t.inserter_state_id_])
            (rt.native (st.1.length + 2) .Inserter_GetPool
              [rt.slotAddress t.inserter_state_id_]),
          .called .Inserter_InsertReserved [rt.slotAddress t.inserter_state_id_]
            (rt.native (st.1.length + 4) .Inserter_InsertReserved
              [rt.slotAddress t.inserter_state_id_]) ] := by
  have h1 := getD_after st.1
    [0, rt.native (st.1.length + 1) .Inserter_ReserveTupleStorage
          [rt.slotAddress t.inserter_state_id_],
     rt.native (st.1.length + 2) .Inserter_GetPool [rt.slotAddress t.inserter_state_id_]] 1 0
  have h2 := getD_after st.1
    [0, rt.native (st.1.length + 1) .Inserter_ReserveTupleStorage
          [rt.slotAddress t.inserter_state_id_],
     rt.native (st.1.length + 2) .Inserter_GetPool [rt.slotAddress t.inserter_state_id_]] 2 0
  simp only [List.getD_cons_succ, List.getD_cons_zero] at h1 h2
  simp only [execFrom, consumeEvents, List.foldl_cons, List.foldl_nil, execStep, Value.eval,
    List.map_cons, List.map_nil, List.append_assoc, List.singleton_append, List.cons_append,
    List.nil_append, List.length_append, List.length_cons, List.length_nil, h1, h2, Nat.add_assoc,
    Nat.reduceAdd, Nat.zero_add]

theorem execFrom_initializeEvents (rt : Runtime) (st : List Nat × List Effect)
    (t : InsertTranslator) :
    (execFrom rt st
      [ .call .Catalog_GetTableWithOid
          [.catalogPtr, CodeGen.Const32 t.insert_plan_.GetTable.GetDatabaseOid,
           CodeGen.Const32 t.insert_plan_.GetTable.GetOid],
        .loadStatePtr t.inserter_state_id_,
        .call .Inserter_Init
          [.statePtr t.inserter_state_id_, .transactionPtr, .result st.1.length,
           .executorContextPtr] ]).2 =
      st.2 ++
        [ .called .Catalog_GetTableWithOid
            [rt.catalog, t.insert_plan_.GetTable.GetDatabaseOid % 2 ^ 32,
             t.insert_plan_.GetTable.GetOid % 2 ^ 32]
            (rt.native st.1.length .Catalog_GetTableWithOid
              [rt.catalog, t.insert_plan_.GetTable.GetDatabaseOid % 2 ^ 32,
               t.insert_plan_.GetTable.GetOid % 2 ^ 32]),
          .called .Inserter_Init
            [rt.slotAddress t.inserter_state_id_, rt.transaction,
             rt.native st.1.length .Catalog_GetTableWithOid
              [rt.catalog, t.insert_plan_.GetTable.GetDatabaseOid % 2 ^ 32,
               t.insert_plan_.GetTable.GetOid % 2 ^ 32],
             rt.executorContext]
            (rt.native (st.1.length + 2) .Inserter_Init
              [rt.slotAddress t.inserter_state_id_, rt.transaction,
               rt.native st.1.length .Catalog_GetTableWithOid
                [rt.catalog, t.insert_plan_.GetTable.GetDatabaseOid % 2 ^ 32,
                 t.insert_plan_.GetTable.GetOid % 2 ^ 32],
               rt.executorContext]) ] := by
  have h0 := getD_after st.1
    [rt.native st.1.length .Catalog_GetTableWithOid
        [rt.catalog, t.insert_plan_.GetTable.GetDatabaseOid % 2 ^ 32,
         t.insert_plan_.GetTable.GetOid % 2 ^ 32], 0] 0 0
  simp only [List.getD_cons_zero, Nat.add_zero] at h0
  simp only [execFrom, List.foldl_cons, List.foldl_nil, execStep, Value.eval, List.map_cons,
    List.map_nil, CodeGen.Const32, List.append_assoc, List.singleton_append, List.length_append,
    List.length_cons, List.length_nil, h0]

theorem exec_append (rt : Runtime) (a b : List Event) :
    exec rt (a ++ b) = (execFrom rt (execFrom rt ([], []) a) b).2 := by
  rw [exec, execFrom_append]

theorem execFrom_start_length (rt : Runtime) (a : List Event) :
    (execFrom rt ([], []) a).1.length = a.length := by
  rw [execFrom_length]
  simp

theorem constructor_childless_eq (env : ChildTranslators) (plan : InsertPlan)
    (context : CompilationContext) (pipeline : Nat) (hnone : plan.children = []) :
    InsertTranslator.InsertTranslator env plan context pipeline =
      some ({ insert_plan_ := plan, tuple_ := plan.table,
              inserter_state_id_ := context.runtime_state.length },
            { trace := context.trace ++
                [.operatorTranslator pipeline, .registerState "inserter" .inserter],
              runtime_state := context.runtime_state ++ [("inserter", .inserter)] }) := by
  simp [InsertTranslator.InsertTranslator, InsertPlan.GetChildrenSize, hnone,
    OperatorTranslator.OperatorTranslator, RuntimeState.RegisterState, CompilationContext.record,
    InsertPlan.GetTable, InserterProxy.GetType]

theorem constructor_child_eq (env : ChildTranslators) (plan : InsertPlan)
    (context : CompilationContext) (pipeline : Nat) (child : AbstractPlan)
    (rest : List AbstractPlan) (hchild : plan.children = child :: rest) :
    InsertTranslator.InsertTranslator env plan context pipeline =
      some ({ insert_plan_ := plan, tuple_ := plan.table,
              inserter_state_id_ := context.runtime_state.length +
                (env.prepare child pipeline
                  { trace := context.trace ++ [.operatorTranslator pipeline, .prepare child pipeline],
                    runtime_state := context.runtime_state }).2.length },
            { trace := context.trace ++
                ([.operatorTranslator pipeline, .prepare child pipeline] ++
                 (env.prepare child pipeline
                  { trace := context.trace ++ [.operatorTranslator pipeline, .prepare child pipeline],
                    runtime_state := context.runtime_state }).1 ++
                 [.registerState "inserter" .inserter]),
              runtime_state := context.runtime_state ++
                (env.prepare child pipeline
                  { trace := context.trace ++ [.operatorTranslator pipeline, .prepare child pipeline],
                    runtime_state := context.runtime_state }).2 ++
                [("inserter", .inserter)] }) := by
  simp [InsertTranslator.InsertTranslator, InsertPlan.GetChildrenSize, InsertPlan.GetChild, hchild,
    OperatorTranslator.OperatorTranslator, RuntimeState.RegisterState, CompilationContext.record,
    CompilationContext.Prepare, InsertPlan.GetTable, InserterProxy.GetType]

theorem slot_get?_after (a : List (String × LType)) (x : String × LType) :
    (a ++ [x]).get? a.length = some x := by
  induction a with
  | nil => rfl
  | cons y a ih => simp

theorem consume_other_none (t : InsertTranslator) (row : Row) (context : CompilationContext)
    (node : Nat) (hchild : t.insert_plan_.GetChild 0 = some (.other node)) :
    t.Consume row context = none := by
  simp [InsertTranslator.Consume, hchild, AbstractPlan.GetAttributes]

theorem consume_childless_none (t : InsertTranslator) (row : Row) (context : CompilationContext)
    (hchild : t.insert_plan_.GetChild 0 = none) :
    t.Consume row context = none := by
  simp [InsertTranslator.Consume, hchild]

theorem literalInserts_calls (t : InsertTranslator) (f : ProxyFunc) (args : List Value)
    (hmem : Event.call f args ∈ literalInserts t) :
    args.head? = some (.statePtr t.inserter_state_id_) := by
  simp only [literalInserts, List.mem_map] at hmem
  obtain ⟨i, _, heq⟩ := hmem
  injection heq with _ hargs
  rw [← hargs]
  rfl

theorem foldlM_consume_none (t : InsertTranslator)
    (hnone : ∀ row context, t.Consume row context = none)
    (row : Row) (rows : List Row) (context : CompilationContext) :
    (row :: rows).foldlM (fun c r => t.Consume r c) context = none := by
  rw [List.foldlM_cons, hnone]
  rfl

/-- Scenario C: no child and no embedded row; `Produce` returns and emits no
call, and the whole lifecycle emits the initialize code and the destroy call. -/
theorem produce_scenario_no_rows :
    emptyTranslator.Produce (scanOf []) emptyContext =
      some { trace := [.loadStatePtr 0], runtime_state := [] } ∧
    (lifecycle (scanOf []) emptyTranslator emptyContext).map (fun r => callsOf r.2.trace) =
      some [ (.Catalog_GetTableWithOid, [.catalogPtr, .const32 1, .const32 7]),
             (.Inserter_Init, [.statePtr 0, .transactionPtr, .result 0, .executorContextPtr]),
             (.Inserter_Destroy, [.statePtr 0]) ] := by
  constructor
  · rw [produce_childless_eq (scanOf []) emptyTranslator _ rfl]
    rfl
  · simp only [lifecycle, initializeState_eq]
    rw [produce_childless_eq (scanOf []) emptyTranslator _ rfl]
    rfl

/-! ## The claims -/

/-- C1: for an insert plan with zero children and N embedded rows, `Produce`
succeeds and emits exactly N runtime calls, all of them insert-literal calls;
the i-th takes the inserter slot pointer and the address of the plan's i-th
row `GetTuple(i)`, rows in their original order; no other runtime call is
emitted and no child's `Produce` is invoked; for N = 0 no call is emitted. -/
theorem produce_literal_rows (env : ChildTranslators) (t : InsertTranslator)
    (context : CompilationContext) (hnone : t.insert_plan_.GetChildrenSize = 0) :
    ∃ context', t.Produce env context = some context' ∧
      context'.runtime_state = context.runtime_state ∧
      context'.trace = context.trace ++ emittedSince context context' ∧
      callsOf (emittedSince context context') =
        (List.range t.insert_plan_.GetBulkInsertCount).map (fun i =>
          (ProxyFunc.Inserter_Insert,
           [Value.statePtr t.inserter_state_id_, tuplePointer (t.insert_plan_.GetTuple i)])) ∧
      (callsOf (emittedSince context context')).length = t.insert_plan_.GetBulkInsertCount ∧
      (∀ i, i < t.insert_plan_.GetBulkInsertCount →
        (callsOf (emittedSince context context')).get? i =
          some (ProxyFunc.Inserter_Insert,
            [Value.statePtr t.inserter_state_id_, tuplePointer (t.insert_plan_.GetTuple i)])) ∧
      (∀ rt results i,
        (tuplePointer (t.insert_plan_.GetTuple i)).eval rt results
          = t.insert_plan_.GetTuple i % 2 ^ 64) ∧
      (∀ c ∈ callsOf (emittedSince context context'), c.1 = ProxyFunc.Inserter_Insert) ∧
      (emittedSince context context').filterMap Event.producedChild = [] ∧
      (t.insert_plan_.GetBulkInsertCount = 0 → callsOf (emittedSince context context') = []) := by
  have hcalls : callsOf (Event.loadStatePtr t.inserter_state_id_ :: literalInserts t) =
      (List.range t.insert_plan_.GetBulkInsertCount).map (fun i =>
        (ProxyFunc.Inserter_Insert,
         [Value.statePtr t.inserter_state_id_, tuplePointer (t.insert_plan_.GetTuple i)])) := by
    have hmap : ∀ l : List Nat,
        List.filterMap Event.callee (l.map (fun i => Event.call .Inserter_Insert
          [Value.statePtr t.inserter_state_id_, tuplePointer (t.insert_plan_.GetTuple i)])) =
        l.map (fun i => (ProxyFunc.Inserter_Insert,
          [Value.statePtr t.inserter_state_id_, tuplePointer (t.insert_plan_.GetTuple i)])) := by
      intro l
      induction l with
      | nil => rfl
      | cons a l ih => simp [Event.callee, ih]
    simp only [callsOf, literalInserts, List.filterMap_cons, Event.callee]
    exact hmap _
  refine ⟨_, produce_childless_eq env t context hnone, rfl, ?_, ?_⟩
  · simp [emittedSince]
  rw [emittedSince_append, hcalls]
  refine ⟨rfl, by simp, ?_, ?_, ?_, ?_, ?_⟩
  · intro i hi
    simp [List.get?_eq_getElem?, List.getElem?_map, List.getElem?_range hi]
  · intro rt results i
    exact tuplePointer_eval rt results _
  · intro c hc
    simp only [List.mem_map] at hc
    obtain ⟨i, _, rfl⟩ := hc
    rfl
  · simp [literalInserts, List.filterMap_map, Function.comp_def, Event.producedChild]
  · intro h0
    simp [h0]

/-- Witness of C1 on Scenario A: three embedded rows give three insert-literal
calls, in the rows' order. -/
theorem produce_literal_rows_witness :
    literalTranslator.insert_plan_.GetChildrenSize = 0 ∧
    ∃ context', literalTranslator.Produce (scanOf []) emptyContext = some context' ∧
      callsOf (emittedSince emptyContext context') =
        [ (ProxyFunc.Inserter_Insert, [Value.statePtr 0, tuplePointer 4096]),
          (ProxyFunc.Inserter_Insert, [Value.statePtr 0, tuplePointer 4160]),
          (ProxyFunc.Inserter_Insert, [Value.statePtr 0, tuplePointer 4224]) ] :=
  ⟨rfl, by
    obtain ⟨c, h1, _, _, h4, _⟩ :=
      produce_literal_rows (scanOf []) literalTranslator emptyContext rfl
    exact ⟨c, h1, by rw [h4]; rfl⟩⟩

/-- C2: for an insert plan with at least one child, `Produce` emits one
prepare-for-row-at-a-time-insertion call (`_CreateTuple`) on the inserter slot
and then invokes the context's `Produce` on child 0, once, in that order; when
that child is a scan pushing its rows into `Consume`, the code emitted holds
one `_CreateTuple` call and no insert-literal call, whatever the plan's
embedded row count. -/
theorem produce_with_child (env : ChildTranslators) (t : InsertTranslator)
    (context : CompilationContext) (child : AbstractPlan) (rest : List AbstractPlan)
    (hchild : t.insert_plan_.children = child :: rest) :
    t.Produce env context =
      env.produce child t.Consume
        { trace := context.trace ++
            [ .loadStatePtr t.inserter_state_id_,
              .call .Inserter_CreateTuple [.statePtr t.inserter_state_id_],
              .produce child ],
          runtime_state := context.runtime_state } ∧
    (∀ node attributes rows, child = .scan node attributes → PushesRows env child rows →
      ∃ context', t.Produce env context = some context' ∧
        context'.trace = context.trace ++ emittedSince context context' ∧
        (emittedSince context context').take 3 =
          [ .loadStatePtr t.inserter_state_id_,
            .call .Inserter_CreateTuple [.statePtr t.inserter_state_id_],
            .produce child ] ∧
        callCount .Inserter_CreateTuple (emittedSince context context') = 1 ∧
        (emittedSince context context').filterMap Event.producedChild = [child] ∧
        callCount .Inserter_Insert (emittedSince context context') = 0) := by
  refine ⟨produce_child_eq env t context child rest hchild, ?_⟩
  intro node attributes rows hscan hpush
  subst hscan
  refine ⟨_, produce_stream_eq env t context node attributes rest rows hchild hpush, ?_⟩
  rw [emittedSince_append]
  refine ⟨rfl, rfl, ?_, ?_, ?_⟩
  · rw [callCount_append,
      callCount_stream t attributes .Inserter_CreateTuple 0 (fun _ _ => rfl), Nat.zero_mul]
    rfl
  · rw [List.filterMap_append, producedChild_stream]
    rfl
  · rw [callCount_append, callCount_stream t attributes .Inserter_Insert 0 (fun _ _ => rfl),
      Nat.zero_mul]
    rfl

/-- Witness of C2 on Scenario B: the plan has a scan child (and three embedded
rows, which play no part). -/
theorem produce_with_child_witness :
    streamTranslator.insert_plan_.children = scanChild :: [] ∧
    ∃ context', streamTranslator.Produce (scanOf fiveRows) emptyContext = some context' ∧
      callCount .Inserter_CreateTuple (emittedSince emptyContext context') = 1 ∧
      callCount .Inserter_Insert (emittedSince emptyContext context') = 0 :=
  ⟨rfl, by
    obtain ⟨c, h1, _, _, h4, _, h6⟩ :=
      (produce_with_child (scanOf fiveRows) streamTranslator emptyContext scanChild [] rfl).2
        2 _ fiveRows rfl (fun _ _ => rfl)
    exact ⟨c, h1, h4, h6⟩⟩

/-- C3: for an insert plan whose child 0 is a scan, one `Consume` of a row
emits, once each and in this order, a reserve-tuple-storage call on the
inserter, the materialization of the row and a commit-reserved call on the
inserter; the materializer gets that row, the scan's attribute list as it is,
the value of the reserve call as destination and the value of the inserter's
get-pool call as pool. -/
theorem consume_reserves_materializes_commits (t : InsertTranslator) (row : Row)
    (context : CompilationContext) (node : Nat) (attributes : List AttributeInfo)
    (hscan : t.insert_plan_.GetChild 0 = some (.scan node attributes)) :
    ∃ context', t.Consume row context = some context' ∧
      context'.runtime_state = context.runtime_state ∧
      context'.trace = context.trace ++
        [ .loadStatePtr t.inserter_state_id_,
          .call .Inserter_ReserveTupleStorage [.statePtr t.inserter_state_id_],
          .call .Inserter_GetPool [.statePtr t.inserter_state_id_],
          .generateTupleStorage t.tuple_ row attributes
            (.result (context.trace.length + 1)) (.result (context.trace.length + 2)),
          .call .Inserter_InsertReserved [.statePtr t.inserter_state_id_] ] ∧
      context'.trace.get? (context.trace.length + 1) =
        some (.call .Inserter_ReserveTupleStorage [.statePtr t.inserter_state_id_]) ∧
      context'.trace.get? (context.trace.length + 2) =
        some (.call .Inserter_GetPool [.statePtr t.inserter_state_id_]) ∧
      callCount .Inserter_ReserveTupleStorage (emittedSince context context') = 1 ∧
      callCount .Inserter_InsertReserved (emittedSince context context') = 1 ∧
      materializedRows (emittedSince context context') = [row] := by
  refine ⟨_, consume_eq t row context node attributes hscan, rfl, rfl, ?_, ?_, ?_⟩
  · exact get?_after _ _ 1
  · exact get?_after _ _ 2
  · rw [emittedSince_append]
    exact ⟨rfl, rfl, rfl⟩

/-- Witness of C3: row 9 pushed into the translator of the sample scan plan. -/
theorem consume_reserves_materializes_commits_witness :
    streamTranslator.insert_plan_.GetChild 0
      = some (.scan 2 [{ attribute_id := 0 }, { attribute_id := 1 }]) ∧
    ∃ context', streamTranslator.Consume { id := 9 } emptyContext = some context' ∧
      context'.trace =
        [ .loadStatePtr 1,
          .call .Inserter_ReserveTupleStorage [.statePtr 1],
          .call .Inserter_GetPool [.statePtr 1],
          .generateTupleStorage sampleTable { id := 9 }
            [{ attribute_id := 0 }, { attribute_id := 1 }] (.result 1) (.result 2),
          .call .Inserter_InsertReserved [.statePtr 1] ] :=
  ⟨rfl, by
    obtain ⟨c, h1, _, h3, _⟩ :=
      consume_reserves_materializes_commits streamTranslator { id := 9 } emptyContext 2
        [{ attribute_id := 0 }, { attribute_id := 1 }] rfl
    exact ⟨c, h1, by rw [h3]; rfl⟩⟩

/-- C4: `InitializeState` emits exactly two calls, in this order: the catalog
table lookup on the catalog handle, the table's database identifier and the
table's identifier; then the inserter-initialize call on the inserter slot
pointer, the transaction handle, the value of that lookup and the
execution-context handle. -/
theorem initializeState_emits_lookup_then_init (t : InsertTranslator)
    (context : CompilationContext) :
    (t.InitializeState context).1 = t ∧
    (t.InitializeState context).2.runtime_state = context.runtime_state ∧
    (t.InitializeState context).2.trace =
      context.trace ++ emittedSince context (t.InitializeState context).2 ∧
    callsOf (emittedSince context (t.InitializeState context).2) =
      [ (.Catalog_GetTableWithOid,
          [.catalogPtr, CodeGen.Const32 t.insert_plan_.GetTable.GetDatabaseOid,
           CodeGen.Const32 t.insert_plan_.GetTable.GetOid]),
        (.Inserter_Init,
          [.statePtr t.inserter_state_id_, .transactionPtr, .result context.trace.length,
           .executorContextPtr]) ] ∧
    (t.InitializeState context).2.trace.get? context.trace.length =
      some (.call .Catalog_GetTableWithOid
        [.catalogPtr, CodeGen.Const32 t.insert_plan_.GetTable.GetDatabaseOid,
         CodeGen.Const32 t.insert_plan_.GetTable.GetOid]) ∧
    (t.insert_plan_.GetTable.GetDatabaseOid < 2 ^ 32 ∧ t.insert_plan_.GetTable.GetOid < 2 ^ 32 →
      CodeGen.Const32 t.insert_plan_.GetTable.GetDatabaseOid
        = .const32 t.insert_plan_.GetTable.GetDatabaseOid ∧
      CodeGen.Const32 t.insert_plan_.GetTable.GetOid = .const32 t.insert_plan_.GetTable.GetOid) := by
  rw [initializeState_eq]
  refine ⟨rfl, rfl, ?_, ?_, ?_, ?_⟩
  · simp [emittedSince]
  · rw [emittedSince_append]
    rfl
  · exact get?_after _ _ 0
  · rintro ⟨h1, h2⟩
    exact ⟨by rw [CodeGen.Const32, Nat.mod_eq_of_lt h1], by rw [CodeGen.Const32, Nat.mod_eq_of_lt h2]⟩

/-- Witness of C4 on the sample table (database 1, table 7). -/
theorem initializeState_emits_lookup_then_init_witness :
    (literalTranslator.insert_plan_.GetTable.GetDatabaseOid < 2 ^ 32 ∧
      literalTranslator.insert_plan_.GetTable.GetOid < 2 ^ 32) ∧
    callsOf (emittedSince emptyContext (literalTranslator.InitializeState emptyContext).2) =
      [ (.Catalog_GetTableWithOid, [.catalogPtr, .const32 1, .const32 7]),
        (.Inserter_Init, [.statePtr 0, .transactionPtr, .result 0, .executorContextPtr]) ] ∧
    CodeGen.Const32 literalTranslator.insert_plan_.GetTable.GetDatabaseOid = .const32 1 ∧
    CodeGen.Const32 literalTranslator.insert_plan_.GetTable.GetOid = .const32 7 :=
  ⟨⟨by decide, by decide⟩,
   (initializeState_emits_lookup_then_init literalTranslator emptyContext).2.2.2.1,
   (initializeState_emits_lookup_then_init literalTranslator emptyContext).2.2.2.2.2
     ⟨by decide, by decide⟩⟩

/-- C5: `TearDownState` emits exactly one call, the destroy-inserter call,
whose only argument is the inserter slot pointer; this holds for every plan,
with or without a child and whatever its embedded row count. -/
theorem tearDownState_emits_one_destroy (t : InsertTranslator) (context : CompilationContext) :
    (t.TearDownState context).1 = t ∧
    (t.TearDownState context).2.runtime_state = context.runtime_state ∧
    (t.TearDownState context).2.trace =
      context.trace ++ emittedSince context (t.TearDownState context).2 ∧
    emittedSince context (t.TearDownState context).2 =
      [ .loadStatePtr t.inserter_state_id_,
        .call .Inserter_Destroy [.statePtr t.inserter_state_id_] ] ∧
    callsOf (emittedSince context (t.TearDownState context).2) =
      [(.Inserter_Destroy, [.statePtr t.inserter_state_id_])] := by
  rw [tearDownState_eq]
  refine ⟨rfl, rfl, ?_, ?_, ?_⟩
  · simp [emittedSince]
  · rw [emittedSince_append]
  · rw [emittedSince_append]
    rfl

/-- C6: for an insert plan with one scan child that yields the rows `rows` and
pushes each of them, in order and once, into `Consume`, the code emitted by
`InitializeState`, then `Produce`, then `TearDownState` is: the initialize
code, one prepare-for-streaming-insert call, then for each row, in the child's
order, one reserve, get-pool, materialize, commit group, then one destroy; the
numbers of reserve calls, of commit calls and of materializations equal the
number of rows, and the rows are materialized in the child's order. -/
theorem lifecycle_streams_child_rows (env : ChildTranslators) (t : InsertTranslator)
    (context : CompilationContext) (node : Nat) (attributes : List AttributeInfo)
    (rows : List Row)
    (hchildren : t.insert_plan_.children = [.scan node attributes])
    (hpush : PushesRows env (.scan node attributes) rows) :
    ∃ context', lifecycle env t context = some (t, context') ∧
      context'.runtime_state = context.runtime_state ∧
      context'.trace = context.trace ++ emittedSince context context' ∧
      emittedSince context context' =
        [ .call .Catalog_GetTableWithOid
            [.catalogPtr, CodeGen.Const32 t.insert_plan_.GetTable.GetDatabaseOid,
             CodeGen.Const32 t.insert_plan_.GetTable.GetOid],
          .loadStatePtr t.inserter_state_id_,
          .call .Inserter_Init
            [.statePtr t.inserter_state_id_, .transactionPtr, .result context.trace.length,
             .executorContextPtr] ] ++
        [ .loadStatePtr t.inserter_state_id_,
          .call .Inserter_CreateTuple [.statePtr t.inserter_state_id_],
          .produce (.scan node attributes) ] ++
        streamEvents t attributes (context.trace.length + 6) rows ++
        [ .loadStatePtr t.inserter_state_id_,
          .call .Inserter_Destroy [.statePtr t.inserter_state_id_] ] ∧
      callCount .Inserter_Init (emittedSince context context') = 1 ∧
      callCount .Inserter_CreateTuple (emittedSince context context') = 1 ∧
      callCount .Inserter_ReserveTupleStorage (emittedSince context context') = rows.length ∧
      callCount .Inserter_InsertReserved (emittedSince context context') = rows.length ∧
      (materializedRows (emittedSince context context')).length = rows.length ∧
      materializedRows (emittedSince context context') = rows ∧
      (∀ table row ais storage pool,
        Event.generateTupleStorage table row ais storage pool ∈ emittedSince context context' →
        ais = attributes) ∧
      callCount .Inserter_Destroy (emittedSince context context') = 1 ∧
      callCount .Inserter_Insert (emittedSince context context') = 0 := by
  have hlife : lifecycle env t context = some (t,
      { trace := context.trace ++
          ([ .call .Catalog_GetTableWithOid
              [.catalogPtr, CodeGen.Const32 t.insert_plan_.GetTable.GetDatabaseOid,
               CodeGen.Const32 t.insert_plan_.GetTable.GetOid],
            .loadStatePtr t.inserter_state_id_,
            .call .Inserter_Init
              [.statePtr t.inserter_state_id_, .transactionPtr, .result context.trace.length,
               .executorContextPtr] ] ++
          [ .loadStatePtr t.inserter_state_id_,
            .call .Inserter_CreateTuple [.statePtr t.inserter_state_id_],
            .produce (.scan node attributes) ] ++
          streamEvents t attributes (context.trace.length + 6) rows ++
          [ .loadStatePtr t.inserter_state_id_,
            .call .Inserter_Destroy [.statePtr t.inserter_state_id_] ]),
        runtime_state := context.runtime_state }) := by
    simp only [lifecycle, initializeState_eq,
      produce_stream_eq env t _ node attributes [] rows hchildren hpush, Option.map_some',
      tearDownState_eq]
    simp [GetCatalogPtr, Nat.add_assoc]
  refine ⟨_, hlife, rfl, ?_, ?_⟩
  · simp [emittedSince]
  rw [emittedSince_append]
  refine ⟨rfl, ?_, ?_, ?_, ?_, ?_, ?_, ?_, ?_, ?_⟩
  · simp only [callCount_append,
      callCount_stream t attributes .Inserter_Init 0 (fun _ _ => rfl), Nat.zero_mul]
    rfl
  · simp only [callCount_append,
      callCount_stream t attributes .Inserter_CreateTuple 0 (fun _ _ => rfl), Nat.zero_mul]
    rfl
  · simp only [callCount_append,
      callCount_stream t attributes .Inserter_ReserveTupleStorage 1 (fun _ _ => rfl), Nat.one_mul]
    show 0 + 0 + rows.length + 0 = rows.length
    omega
  · simp only [callCount_append,
      callCount_stream t attributes .Inserter_InsertReserved 1 (fun _ _ => rfl), Nat.one_mul]
    show 0 + 0 + rows.length + 0 = rows.length
    omega
  · simp only [materializedRows_append, materializedRows_stream]
    simp [materializedRows, Event.materializedRow]
  · simp only [materializedRows_append, materializedRows_stream]
    simp [materializedRows, Event.materializedRow]
  · intro table row ais storage pool hmem
    simp only [List.mem_append] at hmem
    rcases hmem with ((hmem | hmem) | hmem) | hmem
    · simp at hmem
    · simp at hmem
    · exact (stream_materializations t attributes rows _ _ _ _ _ _ hmem).1
    · simp at hmem
  · simp only [callCount_append,
      callCount_stream t attributes .Inserter_Destroy 0 (fun _ _ => rfl), Nat.zero_mul]
    rfl
  · simp only [callCount_append,
      callCount_stream t attributes .Inserter_Insert 0 (fun _ _ => rfl), Nat.zero_mul]
    rfl

/-- Witness of C6 on Scenario B: a scan child yielding five rows of two
attributes each. -/
theorem lifecycle_streams_child_rows_witness :
    streamTranslator.insert_plan_.children
      = [.scan 2 [{ attribute_id := 0 }, { attribute_id := 1 }]] ∧
    PushesRows (scanOf fiveRows) (.scan 2 [{ attribute_id := 0 }, { attribute_id := 1 }])
      fiveRows ∧
    ∃ context', lifecycle (scanOf fiveRows) streamTranslator emptyContext
        = some (streamTranslator, context') ∧
      callCount .Inserter_Init (emittedSince emptyContext context') = 1 ∧
      callCount .Inserter_CreateTuple (emittedSince emptyContext context') = 1 ∧
      callCount .Inserter_ReserveTupleStorage (emittedSince emptyContext context') = 5 ∧
      callCount .Inserter_InsertReserved (emittedSince emptyContext context') = 5 ∧
      materializedRows (emittedSince emptyContext context') = fiveRows ∧
      callCount .Inserter_Destroy (emittedSince emptyContext context') = 1 :=
  ⟨rfl, fun _ _ => rfl, by
    obtain ⟨c, h1, _, _, _, h5, h6, h7, h8, _, h10, _, h12, _⟩ :=
      lifecycle_streams_child_rows (scanOf fiveRows) streamTranslator emptyContext 2
        [{ attribute_id := 0 }, { attribute_id := 1 }] fiveRows rfl (fun _ _ => rfl)
    exact ⟨c, h1, h5, h6, h7, h8, h10, h12⟩⟩

/-- C7 (counterexample): with a runtime in which the catalog lookup fails (it
returns the null handle), the code that `InitializeState` emitted still runs
the inserter-initialize call, on that null table; `InitializeState` reported
nothing, and the later phases emit their code, the destroy call included. -/
theorem initializeState_aborts_counterexample :
    exec nullRuntime (literalTranslator.InitializeState emptyContext).2.trace =
      [ .called .Catalog_GetTableWithOid [100, 1, 7] 0,
        .called .Inserter_Init [1000, 200, 0, 300] 0 ] ∧
    (lifecycle (scanOf []) literalTranslator emptyContext).map (fun r => callsOf r.2.trace) =
      some [ (.Catalog_GetTableWithOid, [.catalogPtr, .const32 1, .const32 7]),
             (.Inserter_Init, [.statePtr 0, .transactionPtr, .result 0, .executorContextPtr]),
             (.Inserter_Insert, [.statePtr 0, tuplePointer 4096]),
             (.Inserter_Insert, [.statePtr 0, tuplePointer 4160]),
             (.Inserter_Insert, [.statePtr 0, tuplePointer 4224]),
             (.Inserter_Destroy, [.statePtr 0]) ] := by
  constructor
  · rfl
  · simp only [lifecycle, initializeState_eq]
    rw [produce_childless_eq (scanOf []) literalTranslator _ rfl]
    rfl

/-- C7 (amended): `InitializeState` has no failure outcome.  It emits the
catalog lookup call and then, unconditionally, the inserter-initialize call
taking the lookup's value as table handle; the table is resolved only when the
emitted code runs, and the initialize call then runs with whatever the lookup
returned.  `TearDownState` emits its destroy call whatever came before. -/
theorem initializeState_never_fails (rt : Runtime) (t : InsertTranslator)
    (context : CompilationContext) :
    (t.InitializeState context).1 = t ∧
    callCount .Inserter_Init (emittedSince context (t.InitializeState context).2) = 1 ∧
    exec rt (t.InitializeState context).2.trace =
      exec rt context.trace ++
        [ .called .Catalog_GetTableWithOid
            [rt.catalog, t.insert_plan_.GetTable.GetDatabaseOid % 2 ^ 32,
             t.insert_plan_.GetTable.GetOid % 2 ^ 32]
            (rt.native context.trace.length .Catalog_GetTableWithOid
              [rt.catalog, t.insert_plan_.GetTable.GetDatabaseOid % 2 ^ 32,
               t.insert_plan_.GetTable.GetOid % 2 ^ 32]),
          .called .Inserter_Init
            [rt.slotAddress t.inserter_state_id_, rt.transaction,
             rt.native context.trace.length .Catalog_GetTableWithOid
              [rt.catalog, t.insert_plan_.GetTable.GetDatabaseOid % 2 ^ 32,
               t.insert_plan_.GetTable.GetOid % 2 ^ 32],
             rt.executorContext]
            (rt.native (context.trace.length + 2) .Inserter_Init
              [rt.slotAddress t.inserter_state_id_, rt.transaction,
               rt.native context.trace.length .Catalog_GetTableWithOid
                [rt.catalog, t.insert_plan_.GetTable.GetDatabaseOid % 2 ^ 32,
                 t.insert_plan_.GetTable.GetOid % 2 ^ 32],
               rt.executorContext]) ] ∧
    (∀ later : CompilationContext,
      callCount .Inserter_Destroy (emittedSince later (t.TearDownState later).2) = 1) := by
  refine ⟨rfl, ?_, ?_, ?_⟩
  · rw [initializeState_eq, emittedSince_append]
    rfl
  · rw [initializeState_eq]
    simp only [exec_append]
    have hlen := execFrom_start_length rt context.trace
    rw [← hlen]
    exact execFrom_initializeEvents rt _ t
  · intro later
    rw [tearDownState_eq, emittedSince_append]
    rfl

/-- C8 (counterexample): with a runtime in which the reserve call and the
get-pool call fail (they return the null handle), the code that `Consume`
emitted for a row still materializes the row, into the null buffer, and still
commits. -/
theorem consume_checks_failures_counterexample :
    (streamTranslator.Consume { id := 9 } emptyContext).map (fun c => exec nullRuntime c.trace) =
      some [ .called .Inserter_ReserveTupleStorage [1008] 0,
             .called .Inserter_GetPool [1008] 0,
             .materialized sampleTable { id := 9 }
               [{ attribute_id := 0 }, { attribute_id := 1 }] 0 0,
             .called .Inserter_InsertReserved [1008] 0 ] := by
  rfl

/-- C8 (amended): the code that `Consume` emits for a row is straight-line: a
reserve call, a get-pool call, the materialization taking the values of both,
and the commit call, with no check in between; when it runs, the row is
materialized and the commit is called whatever the reserve and get-pool calls
returned. -/
theorem consume_runs_unchecked (rt : Runtime) (t : InsertTranslator) (row : Row)
    (context : CompilationContext) (node : Nat) (attributes : List AttributeInfo)
    (hscan : t.insert_plan_.GetChild 0 = some (.scan node attributes)) :
    ∃ context', t.Consume row context = some context' ∧
      emittedSince context context' =
        [ .loadStatePtr t.inserter_state_id_,
          .call .Inserter_ReserveTupleStorage [.statePtr t.inserter_state_id_],
          .call .Inserter_GetPool [.statePtr t.inserter_state_id_],
          .generateTupleStorage t.tuple_ row attributes
            (.result (context.trace.length + 1)) (.result (context.trace.length + 2)),
          .call .Inserter_InsertReserved [.statePtr t.inserter_state_id_] ] ∧
      exec rt context'.trace =
        exec rt context.trace ++
          [ .called .Inserter_ReserveTupleStorage [rt.slotAddress t.inserter_state_id_]
              (rt.native (context.trace.length + 1) .Inserter_ReserveTupleStorage
                [rt.slotAddress t.inserter_state_id_]),
            .called .Inserter_GetPool [rt.slotAddress t.inserter_state_id_]
              (rt.native (context.trace.length + 2) .Inserter_GetPool
                [rt.slotAddress t.inserter_state_id_]),
            .materialized t.tuple_ row attributes
              (rt.native (context.trace.length + 1) .Inserter_ReserveTupleStorage
                [rt.slotAddress t.inserter_state_id_])
              (rt.native (context.trace.length + 2) .Inserter_GetPool
                [rt.slotAddress t.inserter_state_id_]),
            .called .Inserter_InsertReserved [rt.slotAddress t.inserter_state_id_]
              (rt.native (context.trace.length + 4) .Inserter_InsertReserved
                [rt.slotAddress t.inserter_state_id_]) ] := by
  refine ⟨_, consume_eq t row context node attributes hscan, ?_, ?_⟩
  · rw [emittedSince_append]
    rfl
  · simp only [exec_append]
    have hlen := execFrom_start_length rt context.trace
    rw [← hlen]
    exact execFrom_consumeEvents rt _ t attributes row

/-- Witness of C8 (amended): the sample scan plan, row 9, run against the
runtime whose native calls all return the null handle. -/
theorem consume_runs_unchecked_witness :
    streamTranslator.insert_plan_.GetChild 0
      = some (.scan 2 [{ attribute_id := 0 }, { attribute_id := 1 }]) ∧
    ∃ context', streamTranslator.Consume { id := 9 } emptyContext = some context' ∧
      exec nullRuntime context'.trace =
        [ .called .Inserter_ReserveTupleStorage [1008] 0,
          .called .Inserter_GetPool [1008] 0,
          .materialized sampleTable { id := 9 }
            [{ attribute_id := 0 }, { attribute_id := 1 }] 0 0,
          .called .Inserter_InsertReserved [1008] 0 ] :=
  ⟨rfl, by
    obtain ⟨c, h1, _, h3⟩ :=
      consume_runs_unchecked nullRuntime streamTranslator { id := 9 } emptyContext 2
        [{ attribute_id := 0 }, { attribute_id := 1 }] rfl
    exact ⟨c, h1, by rw [h3]; rfl⟩⟩

/-- C9: the constructor works the child before the node itself.  With at least
one child, the context's `Prepare` is called on child 0 with the same
pipeline, once, before the translator registers its own state; without a
child, `Prepare` is not called.  In both cases the constructor then registers
one state slot, named "inserter" with the inserter type, and keeps the slot id
that `RegisterState` returned. -/
theorem constructor_prepares_child_then_registers (env : ChildTranslators) (plan : InsertPlan)
    (context : CompilationContext) (pipeline : Nat) :
    (plan.children = [] →
      InsertTranslator.InsertTranslator env plan context pipeline =
        some ({ insert_plan_ := plan, tuple_ := plan.table,
                inserter_state_id_ := context.runtime_state.length },
              { trace := context.trace ++
                  [.operatorTranslator pipeline, .registerState "inserter" .inserter],
                runtime_state := context.runtime_state ++ [("inserter", .inserter)] })) ∧
    (∀ child rest added, plan.children = child :: rest →
      added = env.prepare child pipeline
        { trace := context.trace ++ [.operatorTranslator pipeline, .prepare child pipeline],
          runtime_state := context.runtime_state } →
      InsertTranslator.InsertTranslator env plan context pipeline =
        some ({ insert_plan_ := plan, tuple_ := plan.table,
                inserter_state_id_ := context.runtime_state.length + added.2.length },
              { trace := context.trace ++
                  ([.operatorTranslator pipeline, .prepare child pipeline] ++ added.1 ++
                   [.registerState "inserter" .inserter]),
                runtime_state := context.runtime_state ++ added.2 ++ [("inserter", .inserter)] })) ∧
    (∃ t context', InsertTranslator.InsertTranslator env plan context pipeline = some (t, context') ∧
      t.insert_plan_ = plan ∧
      context'.runtime_state.get? t.inserter_state_id_ = some ("inserter", .inserter) ∧
      t.inserter_state_id_ + 1 = context'.runtime_state.length ∧
      (emittedSince context context').getLast? = some (.registerState "inserter" .inserter)) := by
  refine ⟨constructor_childless_eq env plan context pipeline, ?_, ?_⟩
  · intro child rest added hchild hadded
    subst hadded
    exact constructor_child_eq env plan context pipeline child rest hchild
  · cases hchildren : plan.children with
    | nil =>
      refine ⟨_, _, constructor_childless_eq env plan context pipeline hchildren, rfl, ?_, ?_, ?_⟩
      · exact slot_get?_after _ _
      · simp
      · rw [emittedSince_append]; rfl
    | cons child rest =>
      refine ⟨_, _, constructor_child_eq env plan context pipeline child rest hchildren, rfl,
        ?_, ?_, ?_⟩
      · have h := slot_get?_after (context.runtime_state ++
          (env.prepare child pipeline
            { trace := context.trace ++ [.operatorTranslator pipeline, .prepare child pipeline],
              runtime_state := context.runtime_state }).2) ("inserter", LType.inserter)
        simpa using h
      · simp [Nat.add_assoc]
      · rw [emittedSince_append]
        exact List.getLast?_concat _

/-- Witness of C9: the childless sample plan and the sample plan with a scan
child, whose translator registers one slot of its own when prepared. -/
theorem constructor_prepares_child_then_registers_witness :
    literalPlan.children = [] ∧
    streamPlan.children = scanChild :: [] ∧
    InsertTranslator.InsertTranslator (scanOf fiveRows) literalPlan emptyContext 4 =
      some (literalTranslator,
            { trace := [.operatorTranslator 4, .registerState "inserter" .inserter],
              runtime_state := [("inserter", .inserter)] }) ∧
    InsertTranslator.InsertTranslator (scanOf fiveRows) streamPlan emptyContext 4 =
      some (streamTranslator,
            { trace := [.operatorTranslator 4, .prepare scanChild 4,
                        .registerState "inserter" .inserter],
              runtime_state := [("scan", .pointerTo .tuple), ("inserter", .inserter)] }) :=
  ⟨rfl, rfl,
   (constructor_prepares_child_then_registers (scanOf fiveRows) literalPlan emptyContext 4).1 rfl,
   (constructor_prepares_child_then_registers (scanOf fiveRows) streamPlan emptyContext 4).2.1
     scanChild [] _ rfl rfl⟩

/-- C10: slot consistency.  The translator that the constructor returns keeps
the slot id that `RegisterState` returned, the id of the "inserter" slot; no
phase changes the translator, so none changes that id; and every inserter call
that a phase emits (initialize; prepare and insert-literal; reserve, get-pool
and commit; destroy) takes the pointer of that slot as its first argument. -/
theorem inserter_slot_consistent (env : ChildTranslators) (plan : InsertPlan)
    (pipeline : Nat) (context0 context1 : CompilationContext) (t : InsertTranslator)
    (hctor : InsertTranslator.InsertTranslator env plan context0 pipeline = some (t, context1))
    (phase : Phase) (context : CompilationContext) (rows : List Row)
    (hpush : ∀ child, t.insert_plan_.GetChild 0 = some child → PushesRows env child rows)
    (t' : InsertTranslator) (context' : CompilationContext)
    (hrun : runPhase env phase t context = some (t', context')) :
    context1.runtime_state.get? t.inserter_state_id_ = some ("inserter", .inserter) ∧
    t.inserter_state_id_ + 1 = context1.runtime_state.length ∧
    t' = t ∧
    t'.inserter_state_id_ = t.inserter_state_id_ ∧
    context'.trace = context.trace ++ emittedSince context context' ∧
    (∀ f args, Event.call f args ∈ emittedSince context context' → f.isInserter = true →
      args.head? = some (.statePtr t.inserter_state_id_)) := by
  obtain ⟨t0, c0, h0, _, hslot, hlast, _⟩ :=
    (constructor_prepares_child_then_registers env plan context0 pipeline).2.2
  rw [hctor] at h0
  injection h0 with h0
  injection h0 with ht hc
  subst ht hc
  refine ⟨hslot, hlast, ?_⟩
  have key : t' = t ∧ ∃ events, context' =
      { trace := context.trace ++ events, runtime_state := context.runtime_state } ∧
      ∀ f args, Event.call f args ∈ events → f.isInserter = true →
        args.head? = some (.statePtr t.inserter_state_id_) := by
    cases phase with
    | initializeState =>
      simp only [runPhase, initializeState_eq, Option.some.injEq, Prod.mk.injEq] at hrun
      refine ⟨hrun.1.symm, _, hrun.2.symm, ?_⟩
      intro f args hmem hins
      simp at hmem
      rcases hmem with ⟨rfl, _⟩ | ⟨rfl, rfl⟩
      · cases hins
      · rfl
    | tearDownState =>
      simp only [runPhase, tearDownState_eq, Option.some.injEq, Prod.mk.injEq] at hrun
      refine ⟨hrun.1.symm, _, hrun.2.symm, ?_⟩
      intro f args hmem hins
      simp at hmem
      rw [hmem.2]
      rfl
    | consume row =>
      simp only [runPhase] at hrun
      cases hchild : t.insert_plan_.GetChild 0 with
      | none => rw [consume_childless_none t row context hchild] at hrun; cases hrun
      | some child =>
        cases child with
        | other node => rw [consume_other_none t row context node hchild] at hrun; cases hrun
        | scan node attributes =>
          rw [consume_eq t row context node attributes hchild] at hrun
          simp only [Option.map_some', Option.some.injEq, Prod.mk.injEq] at hrun
          refine ⟨hrun.1.symm, _, hrun.2.symm, ?_⟩
          intro f args hmem hins
          have hstream : Event.call f args ∈ streamEvents t attributes context.trace.length [row] := by
            simpa [streamEvents] using hmem
          rw [stream_inserter_calls t attributes _ _ f args hstream]
          rfl
    | produce =>
      simp only [runPhase] at hrun
      cases hchildren : t.insert_plan_.children with
      | nil =>
        rw [produce_childless_eq env t context (by simp [InsertPlan.GetChildrenSize, hchildren])]
          at hrun
        simp only [Option.map_some', Option.some.injEq, Prod.mk.injEq] at hrun
        refine ⟨hrun.1.symm, _, hrun.2.symm, ?_⟩
        intro f args hmem hins
        simp only [List.mem_cons] at hmem
        rcases hmem with hmem | hmem
        · cases hmem
        · exact literalInserts_calls t f args hmem
      | cons child rest =>
        have hchild := getChild_zero _ _ _ hchildren
        cases child with
        | scan node attributes =>
          rw [produce_stream_eq env t context node attributes rest rows hchildren
            (hpush _ hchild)] at hrun
          simp only [Option.map_some', Option.some.injEq, Prod.mk.injEq] at hrun
          refine ⟨hrun.1.symm, _, hrun.2.symm, ?_⟩
          intro f args hmem hins
          simp only [List.mem_append] at hmem
          rcases hmem with hmem | hmem
          · simp at hmem
            rw [hmem.2]
            rfl
          · rw [stream_inserter_calls t attributes _ _ f args hmem]
            rfl
        | other node =>
          rw [produce_child_eq env t context _ rest hchildren, hpush _ hchild] at hrun
          cases rows with
          | nil =>
            simp only [List.foldlM_nil, Option.pure_def, Option.map_some', Option.some.injEq,
              Prod.mk.injEq] at hrun
            refine ⟨hrun.1.symm, _, hrun.2.symm, ?_⟩
            intro f args hmem hins
            simp at hmem
            rw [hmem.2]
            rfl
          | cons row rows =>
            rw [foldlM_consume_none t (fun r c => consume_other_none t r c node hchild)] at hrun
            cases hrun
  obtain ⟨ht, events, hctx, hcalls⟩ := key
  subst hctx
  refine ⟨ht, by rw [ht], ?_, ?_⟩
  · simp [emittedSince]
  · rw [emittedSince_append]
    exact hcalls

/-- Witness of C10: the translator constructed for the sample scan plan, and
its `Consume` of row 9. -/
theorem inserter_slot_consistent_witness :
    InsertTranslator.InsertTranslator (scanOf fiveRows) streamPlan emptyContext 4 =
      some (streamTranslator,
            { trace := [.operatorTranslator 4, .prepare scanChild 4,
                        .registerState "inserter" .inserter],
              runtime_state := [("scan", .pointerTo .tuple), ("inserter", .inserter)] }) ∧
    (∀ child, streamTranslator.insert_plan_.GetChild 0 = some child →
      PushesRows (scanOf fiveRows) child fiveRows) ∧
    runPhase (scanOf fiveRows) (.consume { id := 9 }) streamTranslator emptyContext =
      some (streamTranslator,
            { trace := consumeEvents streamTranslator
                [{ attribute_id := 0 }, { attribute_id := 1 }] 0 { id := 9 },
              runtime_state := [] }) ∧
    (∀ f args,
      Event.call f args ∈ emittedSince emptyContext
        { trace := consumeEvents streamTranslator
            [{ attribute_id := 0 }, { attribute_id := 1 }] 0 { id := 9 },
          runtime_state := [] } →
      f.isInserter = true → args.head? = some (.statePtr 1)) :=
  ⟨rfl, fun _ _ _ _ => rfl, rfl,
   (inserter_slot_consistent (scanOf fiveRows) streamPlan 4 emptyContext _ streamTranslator rfl
      (.consume { id := 9 }) emptyContext fiveRows (fun _ _ _ _ => rfl) streamTranslator
      { trace := consumeEvents streamTranslator
          [{ attribute_id := 0 }, { attribute_id := 1 }] 0 { id := 9 },
        runtime_state := [] } rfl).2.2.2.2.2⟩

end peloton.codegen











